import Mathlib

/-!
# Verification of the pywebp wrapper specification

The repository is a thin binding of the external WebP codec library plus
convenience wrappers (`webp/__init__.py`, whose tests live in
`tests/test_webp.py`), a `setup.py`, and a Python-2 `TemporaryDirectory`
backport inside the test module.  The wrapper module itself is not part of
the source tree given here, so its object model (config, picture, data,
animation encoder/decoder, `save_image`/`load_image`,
`save_images`/`load_images`) is modelled from the specification; the
`setup.py` helper and the `TemporaryDirectory` backport are embedded
directly from their source.

Pixels are uint8 channel values, modelled as `Nat`; images and pictures are
flat lists of pixels together with width/height metadata.  Byte buffers
produced by the external codec are modelled by the container content they
encode (the RIFF serialisation itself is external to the repository).
-/

set_option autoImplicit false

/-- Modelled from the spec: the colour modes the wrapper's still/animation
paths exercise (RGB and RGBA host images and decoder output modes). -/
inductive ColorMode
  | RGB
  | RGBA
deriving DecidableEq, Repr

/-- One pixel; `r`, `g`, `b`, `a` are uint8 channel values (0..255).  For an
RGB-mode image the `a` field is present in the representation but is never
observed (arrays of RGB images contain only the r, g, b channels). -/
structure Pix where
  r : Nat
  g : Nat
  b : Nat
  a : Nat
deriving DecidableEq, Repr

/-- The channel bytes a pixel contributes to a numpy-style uint8 array in a
given colour mode. -/
def Pix.toBytes : ColorMode → Pix → List Nat
  | .RGB, p => [p.r, p.g, p.b]
  | .RGBA, p => [p.r, p.g, p.b, p.a]

/-- Modelled from the spec: a host (PIL) image — a mode, dimensions, and a
flat pixel buffer. -/
structure PILImage where
  mode : ColorMode
  width : Nat
  height : Nat
  pixels : List Pix
deriving DecidableEq, Repr

/-- The flat uint8 array `np.asarray(img, dtype=np.uint8)` of a host image:
each pixel contributes the channels of the image's mode. -/
def PILImage.asarray (img : PILImage) : List Nat :=
  img.pixels.flatMap (Pix.toBytes img.mode)

/-- The flat uint8 array of a raw pixel buffer read in a given mode. -/
def bufBytes (m : ColorMode) (buf : List Pix) : List Nat :=
  buf.flatMap (Pix.toBytes m)

/-- Importing a pixel into the codec's canonical four-channel form: an
RGB-mode read fixes the alpha channel at 255, an RGBA-mode read takes the
pixel as is. -/
def canonPix : ColorMode → Pix → Pix
  | .RGB, p => { p with a := 255 }
  | .RGBA, p => p

/-- Modelled from the spec: a picture object holding a raw pixel buffer plus
width/height metadata, mirroring the external library's picture struct. -/
structure WebPPicture where
  width : Nat
  height : Nat
  pixels : List Pix
deriving DecidableEq, Repr

/-- Modelled from the spec: `WebPPicture.new(width, height)` allocates a
picture of the given dimensions (an uninitialised buffer, modelled as
opaque black). -/
def WebPPicture.new (width height : Nat) : WebPPicture :=
  ⟨width, height, List.replicate (width * height) ⟨0, 0, 0, 255⟩⟩

/-- Modelled from the spec: `WebPPicture.from_pil(img)` imports a host
image's pixel buffer (RGB or RGBA) into a picture of the same dimensions. -/
def WebPPicture.from_pil (img : PILImage) : WebPPicture :=
  ⟨img.width, img.height, img.pixels.map (canonPix img.mode)⟩

/-- Modelled from the spec: freeing a picture mirrors the external library's
free call and cannot fail. -/
def WebPPicture.delete (_pic : WebPPicture) : Unit := ()

/-- Modelled from the spec: the encoder presets of the external library. -/
inductive WebPPreset
  | DEFAULT
  | PICTURE
  | PHOTO
  | DRAWING
  | ICON
  | TEXT
deriving DecidableEq, Repr

/-- Modelled from the spec: a configuration object carrying the
quality/preset parameters handed to the codec. -/
structure WebPConfig where
  lossless : Bool
  quality : Nat
  preset : WebPPreset
deriving DecidableEq, Repr

/-- Validation mirroring the external library's config check: the quality
factor must lie in 0..100. -/
def WebPConfig.validate (c : WebPConfig) : Bool :=
  c.quality ≤ 100

/-- Modelled from the spec: `WebPConfig.new(preset, quality, lossless)`
initialises a config from a preset and quality (Python defaults:
`DEFAULT`, 75, `False`) and validates it; `none` models the raised error on
an invalid config. -/
def WebPConfig.new (preset : WebPPreset) (quality : Nat) (lossless : Bool) :
    Option WebPConfig :=
  let c : WebPConfig := ⟨lossless, quality, preset⟩
  if c.validate then some c else none

/-- Modelled from the spec: freeing a config mirrors the external library's
free call and cannot fail. -/
def WebPConfig.delete (_c : WebPConfig) : Unit := ()

/-- Modelled from the spec: the WebP container content — canvas dimensions
and a list of frames, each a raw pixel buffer together with the timestamp
(in ms) at which the frame stops being displayed.  A still image is a
one-frame container.  The byte buffer the external library would serialise
this to is modelled by the container content itself. -/
structure WebPData where
  width : Nat
  height : Nat
  frames : List (List Pix × Nat)
deriving DecidableEq, Repr

/-- Modelled from the spec: `.buffer()` returns the serialised bytes of the
container; serialisation being external, the bytes are modelled by the
container content. -/
def WebPData.buffer (d : WebPData) : WebPData := d

/-- Modelled from the spec: `WebPData.from_buffer(buf)` wraps a byte buffer
(modelled by the container content it encodes). -/
def WebPData.from_buffer (b : WebPData) : WebPData := b

/-- Modelled from the spec: the codec-specific degradation a lossy encode
applies to a pixel (the claims only exercise the lossless path, on which no
degradation happens). -/
def lossyPix (p : Pix) : Pix :=
  ⟨p.r / 8 * 8, p.g / 8 * 8, p.b / 8 * 8, p.a / 8 * 8⟩

/-- The pixel buffer actually stored for a picture encoded under a config:
exact for a lossless config, degraded for a lossy one. -/
def encodePixels (cfg : WebPConfig) (buf : List Pix) : List Pix :=
  if cfg.lossless then buf else buf.map lossyPix

/-- Modelled from the spec: still-image encode of a picture under a config,
yielding a one-frame container. -/
def WebPPicture.encode (pic : WebPPicture) (cfg : WebPConfig) : WebPData :=
  ⟨pic.width, pic.height, [(encodePixels cfg pic.pixels, 0)]⟩

/-- Modelled from the spec: still-image decode of a container in a requested
colour mode, yielding the flat uint8 pixel array. -/
def WebPData.decode (d : WebPData) (color_mode : ColorMode) : List Nat :=
  match d.frames with
  | [] => []
  | f :: _ => bufBytes color_mode f.1

/-- Modelled from the spec: animation encoder options (the two options the
wrapper exposes). -/
structure WebPAnimEncoderOptions where
  minimize_size : Bool
  allow_mixed : Bool
deriving DecidableEq, Repr

/-- Modelled from the spec: `WebPAnimEncoderOptions.new()` yields the
external library's default options. -/
def WebPAnimEncoderOptions.new : WebPAnimEncoderOptions :=
  ⟨false, false⟩

/-- Modelled from the spec: an animation encoder session — the canvas
dimensions, the options it was created with, and the frames added so far,
each a stored pixel buffer together with its start timestamp (ms). -/
structure WebPAnimEncoder where
  width : Nat
  height : Nat
  enc_opts : WebPAnimEncoderOptions
  frames : List (List Pix × Nat)
deriving DecidableEq, Repr

/-- Modelled from the spec: `WebPAnimEncoder.new(width, height, enc_opts)`;
omitting the options argument (`none`) uses the defaults. -/
def WebPAnimEncoder.new (width height : Nat)
    (enc_opts : Option WebPAnimEncoderOptions) : WebPAnimEncoder :=
  ⟨width, height, enc_opts.getD WebPAnimEncoderOptions.new, []⟩

/-- Modelled from the spec: `encode_frame(pic, timestamp_ms, config)` adds a
picture to the session at the given start timestamp.  The external library
rejects a frame whose dimensions differ from the canvas; `none` models that
raised error. -/
def WebPAnimEncoder.encode_frame (enc : WebPAnimEncoder) (pic : WebPPicture)
    (timestamp_ms : Nat) (cfg : WebPConfig) : Option WebPAnimEncoder :=
  if pic.width = enc.width ∧ pic.height = enc.height then
    some { enc with
           frames := enc.frames ++ [(encodePixels cfg pic.pixels, timestamp_ms)] }
  else
    none

/-- The loop body of repeated `encode_frame` calls over a list of
(picture, timestamp) pairs. -/
def encodeFrames (cfg : WebPConfig) :
    WebPAnimEncoder → List (WebPPicture × Nat) → Option WebPAnimEncoder
  | enc, [] => some enc
  | enc, (pic, t) :: rest =>
    match enc.encode_frame pic t cfg with
    | some e => encodeFrames cfg e rest
    | none => none

/-- Helper for `mergeFrames`: `p` is the pending frame (with start time `t`)
and the remaining added frames follow.  A following frame identical to the
pending one is absorbed (the pending frame's display simply lasts longer); a
differing frame closes the pending frame at that frame's start time.  The
final pending frame is closed at the overall end timestamp `T`. -/
def mergeAux (T : Nat) (p : List Pix) (t : Nat) :
    List (List Pix × Nat) → List (List Pix × Nat)
  | [] => [(p, T)]
  | (q, u) :: rest =>
    if p = q then mergeAux T p t rest
    else (p, u) :: mergeAux T q u rest

/-- Modelled from the spec (and the test module's comment): the external
library combines adjacent duplicate frames and adjusts timestamps
accordingly.  Input frames carry start timestamps; output frames carry end
timestamps, the last one being the `final_timestamp` passed to
`assemble`. -/
def mergeFrames (T : Nat) : List (List Pix × Nat) → List (List Pix × Nat)
  | [] => []
  | (p, t) :: rest => mergeAux T p t rest

/-- Modelled from the spec: `assemble(final_timestamp)` packs the added
frames into a container, combining adjacent duplicates. -/
def WebPAnimEncoder.assemble (enc : WebPAnimEncoder) (final_timestamp : Nat) :
    WebPData :=
  ⟨enc.width, enc.height, mergeFrames final_timestamp enc.frames⟩

/-- Modelled from the spec: animation decoder options (the colour mode the
decoded frames are produced in). -/
structure WebPAnimDecoderOptions where
  color_mode : ColorMode
deriving DecidableEq, Repr

/-- Modelled from the spec: `WebPAnimDecoderOptions.new()` defaults to RGBA
output. -/
def WebPAnimDecoderOptions.new : WebPAnimDecoderOptions :=
  ⟨.RGBA⟩

/-- Modelled from the spec: the animation metadata exposed as
`dec.anim_info`. -/
structure WebPAnimInfo where
  width : Nat
  height : Nat
  frame_count : Nat
deriving DecidableEq, Repr

/-- Modelled from the spec: an animation decoder session over a parsed
container. -/
structure WebPAnimDecoder where
  data : WebPData
  dec_opts : WebPAnimDecoderOptions
deriving DecidableEq, Repr

/-- Modelled from the spec: `WebPAnimDecoder.new(webp_data, dec_opts)`. -/
def WebPAnimDecoder.new (data : WebPData) (dec_opts : WebPAnimDecoderOptions) :
    WebPAnimDecoder :=
  ⟨data, dec_opts⟩

/-- Modelled from the spec: the decoder's animation metadata. -/
def WebPAnimDecoder.anim_info (dec : WebPAnimDecoder) : WebPAnimInfo :=
  ⟨dec.data.width, dec.data.height, dec.data.frames.length⟩

/-- Modelled from the spec: the `frames()` iterator — each decoded frame as
a flat uint8 array in the decoder's colour mode, paired with the timestamp
at which the frame stops being displayed. -/
def WebPAnimDecoder.frames (dec : WebPAnimDecoder) : List (List Nat × Nat) :=
  dec.data.frames.map (fun f => (bufBytes dec.dec_opts.color_mode f.1, f.2))

/-- Modelled from the spec: `save_image(img, path, lossless)` — import the
host image, encode it under a config built from the keyword arguments, and
write the buffer to the file (the file is modelled by the buffer written). -/
def save_image (img : PILImage) (lossless : Bool) : Option WebPData :=
  match WebPConfig.new .DEFAULT 75 lossless with
  | none => none
  | some cfg => some ((WebPPicture.from_pil img).encode cfg).buffer

/-- Modelled from the spec: `load_image(path, color_mode)` — read the file's
bytes, parse them, and decode a single image as a flat uint8 array. -/
def load_image (buf : WebPData) (color_mode : ColorMode) : List Nat :=
  (WebPData.from_buffer buf).decode color_mode

/-- Frame timestamps used by `save_images`: image `i` (counting from `i₀`)
starts at `i * 1000 / fps` milliseconds. -/
def timestamped (fps : Nat) : Nat → List PILImage → List (WebPPicture × Nat)
  | _, [] => []
  | i, img :: rest =>
    (WebPPicture.from_pil img, i * 1000 / fps) :: timestamped fps (i + 1) rest

/-- Modelled from the spec: `save_images(imgs, path, fps, lossless)` — build
an animation encoder on the first image's dimensions, add every image at its
fps-derived timestamp, and assemble at the end timestamp
`len(imgs) * 1000 / fps`.  `none` models a raised error (no image to take
dimensions from, or a frame the external library rejects). -/
def save_images (imgs : List PILImage) (fps : Nat) (lossless : Bool) :
    Option WebPData :=
  match imgs with
  | [] => none
  | img0 :: _ =>
    match WebPConfig.new .DEFAULT 75 lossless with
    | none => none
    | some cfg =>
      match encodeFrames cfg (WebPAnimEncoder.new img0.width img0.height none)
          (timestamped fps 0 imgs) with
      | none => none
      | some enc => some ((enc.assemble (imgs.length * 1000 / fps)).buffer)

/-- Modelled from the spec (and the test module's comment): resampling the
decoded frames to an even spacing.  `k` output frames have been produced so
far; the current frame (displayed until `tEnd`) is repeated while
`k * 1000 / fps < tEnd`, i.e. `k * 1000 < tEnd * fps`, which amounts to
`ceil(tEnd * fps / 1000) - k` repetitions. -/
def resampleAux (fps : Nat) : Nat → List (List Nat × Nat) → List (List Nat)
  | _, [] => []
  | k, (arr, tEnd) :: rest =>
    let reps := (tEnd * fps + 999) / 1000 - k
    List.replicate reps arr ++ resampleAux fps (k + reps) rest

/-- Modelled from the spec: `load_images(path, color_mode, fps)` — parse the
file's bytes, decode every frame in the requested colour mode, and either
return the frames as decoded (`fps = none`) or resample them to the given
even frame rate. -/
def load_images (buf : WebPData) (color_mode : ColorMode) (fps : Option Nat) :
    List (List Nat) :=
  let dec := WebPAnimDecoder.new (WebPData.from_buffer buf) ⟨color_mode⟩
  match fps with
  | none => dec.frames.map Prod.fst
  | some f => resampleAux f 0 dec.frames

/-- Python exception classes relevant to `setup.py`'s
`get_long_description`. -/
inductive PyExn
  | importError
  | ioError
  | conversionError
deriving DecidableEq, Repr

/-- Shallow embedding of `get_long_description` from `setup.py`.
`pypandoc = none` models `import pypandoc` raising `ImportError`;
`pypandoc = some r` models the imported module, with `r` the outcome of
`pypandoc.convert('README.md', 'rst')`.  `readme` models
`open('README.md').read()`.  The `try` block runs import-then-convert; an
`ImportError` escaping it selects the fallback, any other exception
propagates. -/
def get_long_description (pypandoc : Option (Except PyExn String))
    (readme : Except PyExn String) : Except PyExn String :=
  let body : Except PyExn String :=
    match pypandoc with
    | none => Except.error PyExn.importError
    | some r => r
  match body with
  | Except.ok s => Except.ok s
  | Except.error PyExn.importError => readme
  | Except.error e => Except.error e

/-- The filesystem as the set of existing paths (a directory tree is the
set of paths sharing its root as a prefix). -/
abbrev FS := List String

/-- Shallow embedding of `TemporaryDirectory._rmtree` from the test module:
remove the directory tree rooted at `root` (the stripped-down
`shutil.rmtree`, which removes every entry under the root and then the root
itself, ignoring per-entry errors). -/
def rmtree (root : String) (fs : FS) : FS :=
  fs.filter (fun p => ¬ root.isPrefixOf p)

/-- Shallow embedding of the Python-2 `TemporaryDirectory` backport's object
state from the test module: the directory name (`none` models `mkdtemp`
having raised before assignment) and the `_closed` flag. -/
structure TemporaryDirectory where
  name : Option String
  _closed : Bool
deriving DecidableEq, Repr

/-- Shallow embedding of `TemporaryDirectory.cleanup` from the test module:
if a name is set and the instance is not yet closed, remove the tree and set
`_closed`; otherwise do nothing.  (The `_warn` flag only controls the
emission of a `ResourceWarning` and the `TypeError`/`AttributeError` guard
only matters during interpreter shutdown; neither affects the state.) -/
def TemporaryDirectory.cleanup (td : TemporaryDirectory) (fs : FS) :
    TemporaryDirectory × FS :=
  match td.name with
  | none => (td, fs)
  | some n =>
    if td._closed then (td, fs)
    else ({ td with _closed := true }, rmtree n fs)

/-- Shallow embedding of `TemporaryDirectory.__exit__`: delegates to
`cleanup`. -/
def TemporaryDirectory.exit (td : TemporaryDirectory) (fs : FS) :
    TemporaryDirectory × FS :=
  td.cleanup fs

/-- Shallow embedding of `TemporaryDirectory.__del__`: delegates to
`cleanup` (with `_warn=True`, which only affects warning emission). -/
def TemporaryDirectory.del (td : TemporaryDirectory) (fs : FS) :
    TemporaryDirectory × FS :=
  td.cleanup fs

/-! ## Helper lemmas -/

theorem toBytes_canonPix (m : ColorMode) (p : Pix) :
    Pix.toBytes m (canonPix m p) = Pix.toBytes m p := by
  cases m <;> rfl

theorem bufBytes_canonPix (m : ColorMode) (ps : List Pix) :
    bufBytes m (ps.map (canonPix m)) = bufBytes m ps := by
  induction ps with
  | nil => rfl
  | cons p ps ih =>
    simp only [List.map_cons, bufBytes, List.flatMap_cons] at *
    rw [toBytes_canonPix, ih]

theorem canonPix_rgba (p : Pix) : canonPix .RGBA p = p := rfl

theorem map_canonPix_rgba (ps : List Pix) : ps.map (canonPix .RGBA) = ps := by
  induction ps with
  | nil => rfl
  | cons p ps ih => simp [canonPix, ih]

theorem from_pil_pixels_rgba (img : PILImage) (h : img.mode = .RGBA) :
    (WebPPicture.from_pil img).pixels = img.pixels := by
  simp [WebPPicture.from_pil, h, map_canonPix_rgba]

theorem from_pil_bytes (img : PILImage) :
    bufBytes img.mode (WebPPicture.from_pil img).pixels = img.asarray := by
  simp only [WebPPicture.from_pil, PILImage.asarray]
  exact bufBytes_canonPix img.mode img.pixels

theorem encodePixels_lossless (cfg : WebPConfig) (h : cfg.lossless = true)
    (ps : List Pix) : encodePixels cfg ps = ps := by
  simp [encodePixels, h]

/-- The lossless config that `WebPConfig.new .DEFAULT 75 true` builds. -/
theorem config_new_lossless :
    WebPConfig.new .DEFAULT 75 true = some ⟨true, 75, .DEFAULT⟩ := rfl

/-- The still-image encode/decode round trip shared by the `WebPPicture`
pipeline and the `save_image`/`load_image` wrappers. -/
theorem decode_encode_still (img : PILImage) (cfg : WebPConfig)
    (hl : cfg.lossless = true) :
    ((WebPPicture.from_pil img).encode cfg).decode img.mode = img.asarray := by
  simp only [WebPPicture.encode, WebPData.decode, encodePixels_lossless cfg hl]
  exact from_pil_bytes img

/-- Repeated `encode_frame` over pictures matching the canvas always
succeeds and appends the stored buffers with their timestamps. -/
theorem encodeFrames_ok (cfg : WebPConfig) (l : List (WebPPicture × Nat)) :
    ∀ enc : WebPAnimEncoder,
      (∀ p ∈ l, p.1.width = enc.width ∧ p.1.height = enc.height) →
      encodeFrames cfg enc l =
        some { enc with
               frames := enc.frames ++
                 l.map (fun p => (encodePixels cfg p.1.pixels, p.2)) } := by
  induction l with
  | nil =>
    intro enc _
    simp [encodeFrames]
  | cons p rest ih =>
    intro enc hsz
    obtain ⟨pic, t⟩ := p
    have hp := hsz (pic, t) (by simp)
    have hrest : ∀ q ∈ rest,
        q.1.width = ({ enc with
            frames := enc.frames ++ [(encodePixels cfg pic.pixels, t)] } :
              WebPAnimEncoder).width ∧
        q.1.height = ({ enc with
            frames := enc.frames ++ [(encodePixels cfg pic.pixels, t)] } :
              WebPAnimEncoder).height := by
      intro q hq
      exact hsz q (by simp [hq])
    have hc : pic.width = enc.width ∧ pic.height = enc.height := hp
    simp only [encodeFrames, WebPAnimEncoder.encode_frame, if_pos hc]
    rw [ih _ hrest]
    simp

/-- Closed form of `mergeAux` on a run of pairwise-adjacent-distinct
buffers: nothing merges, each frame's end timestamp is the next frame's
start timestamp and the final frame ends at `T`. -/
theorem mergeAux_eq (T : Nat) (rest : List (List Pix × Nat)) :
    ∀ (p : List Pix) (t : Nat),
      List.Chain' (fun a b => a.1 ≠ b.1) ((p, t) :: rest) →
      mergeAux T p t rest =
        (p :: rest.map Prod.fst).zip (rest.map Prod.snd ++ [T]) := by
  induction rest with
  | nil =>
    intro p t _
    rfl
  | cons q rs ih =>
    intro p t hch
    obtain ⟨qb, u⟩ := q
    have hpq : p ≠ qb := by
      have := List.chain'_cons.mp hch
      exact this.1
    have hch' : List.Chain' (fun a b => a.1 ≠ b.1) ((qb, u) :: rs) :=
      (List.chain'_cons.mp hch).2
    simp only [mergeAux, if_neg hpq]
    rw [ih qb u hch']
    simp [List.zip_cons_cons]

/-- Closed form of `mergeFrames` on an adjacent-distinct frame list. -/
theorem mergeFrames_eq (T : Nat) (l : List (List Pix × Nat))
    (h : List.Chain' (fun a b => a.1 ≠ b.1) l) :
    mergeFrames T l =
      (l.map Prod.fst).zip (l.tail.map Prod.snd ++ [T]) := by
  cases l with
  | nil => rfl
  | cons p rest =>
    obtain ⟨pb, t⟩ := p
    simp only [mergeFrames, List.map_cons, List.tail_cons]
    exact mergeAux_eq T rest pb t h

/-- Merging an adjacent-distinct frame list keeps every buffer, in order. -/
theorem mergeFrames_map_fst (T : Nat) (l : List (List Pix × Nat))
    (h : List.Chain' (fun a b => a.1 ≠ b.1) l) :
    (mergeFrames T l).map Prod.fst = l.map Prod.fst := by
  rw [mergeFrames_eq T l h]
  apply List.map_fst_zip
  cases l with
  | nil => simp
  | cons p rest => simp

/-- Merging an adjacent-distinct frame list keeps the frame count. -/
theorem mergeFrames_length (T : Nat) (l : List (List Pix × Nat))
    (h : List.Chain' (fun a b => a.1 ≠ b.1) l) :
    (mergeFrames T l).length = l.length := by
  have := congrArg List.length (mergeFrames_map_fst T l h)
  simpa using this

/-- Distinct same-geometry RGBA images have distinct pixel buffers. -/
theorem pixels_ne_of_ne (w h : Nat) (a b : PILImage)
    (ha : a.mode = .RGBA) (hb : b.mode = .RGBA)
    (haw : a.width = w) (hah : a.height = h)
    (hbw : b.width = w) (hbh : b.height = h)
    (hne : a ≠ b) : a.pixels ≠ b.pixels := by
  intro hp
  apply hne
  cases a
  cases b
  simp only at ha hb haw hah hbw hbh hp
  subst ha haw hah hp
  simp [hb, hbw, hbh]

/-- The frames a list of same-geometry pairwise-distinct RGBA images
contributes are adjacent-distinct, whatever timestamps they carry. -/
theorem chain_of_pairwise (w h : Nat) (imgs : List PILImage)
    (F : List (List Pix × Nat))
    (hF : F.map Prod.fst = imgs.map PILImage.pixels)
    (hmode : ∀ im ∈ imgs, im.mode = .RGBA)
    (hsize : ∀ im ∈ imgs, im.width = w ∧ im.height = h)
    (hdist : List.Pairwise (fun a b => a ≠ b) imgs) :
    List.Chain' (fun a b : List Pix × Nat => a.1 ≠ b.1) F := by
  rw [← List.chain'_map (Prod.fst (α := List Pix) (β := Nat)), hF,
    List.chain'_map]
  have hpw : List.Pairwise (fun a b : PILImage => a.pixels ≠ b.pixels) imgs := by
    refine List.Pairwise.imp_of_mem ?_ hdist
    intro a b hma hmb hne
    exact pixels_ne_of_ne w h a b (hmode a hma) (hmode b hmb)
      (hsize a hma).1 (hsize a hma).2 (hsize b hmb).1 (hsize b hmb).2 hne
  exact hpw.chain'

/-- Reading a merged RGBA frame list back as uint8 arrays recovers the
original images' arrays, and the frame count is the image count. -/
theorem merged_decode (T : Nat) (imgs : List PILImage)
    (F : List (List Pix × Nat))
    (hF : F.map Prod.fst = imgs.map PILImage.pixels)
    (hmode : ∀ im ∈ imgs, im.mode = .RGBA)
    (hchain : List.Chain' (fun a b : List Pix × Nat => a.1 ≠ b.1) F) :
    (mergeFrames T F).length = imgs.length ∧
    (mergeFrames T F).map (fun f => bufBytes .RGBA f.1) =
      imgs.map PILImage.asarray := by
  have hlenF : F.length = imgs.length := by
    have := congrArg List.length hF
    simpa using this
  constructor
  · rw [mergeFrames_length T F hchain, hlenF]
  · have h1 : (mergeFrames T F).map (fun f => bufBytes .RGBA f.1) =
        ((mergeFrames T F).map Prod.fst).map (bufBytes .RGBA) := by
      rw [List.map_map]
      rfl
    rw [h1, mergeFrames_map_fst T F hchain, hF, List.map_map]
    apply List.map_congr_left
    intro im him
    simp only [Function.comp_apply, PILImage.asarray, bufBytes, hmode im him]

/-- Every picture `timestamped` produces comes from an image of the list. -/
theorem timestamped_mem (fps : Nat) :
    ∀ (l : List PILImage) (i : Nat) (p : WebPPicture × Nat),
      p ∈ timestamped fps i l → ∃ im ∈ l, p.1 = WebPPicture.from_pil im := by
  intro l
  induction l with
  | nil =>
    intro i p hp
    simp [timestamped] at hp
  | cons im rest ih =>
    intro i p hp
    simp only [timestamped, List.mem_cons] at hp
    rcases hp with h | h
    · exact ⟨im, by simp, by rw [h]⟩
    · obtain ⟨im', him', heq⟩ := ih (i + 1) p h
      exact ⟨im', by simp [him'], heq⟩

/-- The pictures `timestamped` produces, in order. -/
theorem timestamped_map_fst (fps : Nat) :
    ∀ (l : List PILImage) (i : Nat),
      (timestamped fps i l).map Prod.fst = l.map WebPPicture.from_pil := by
  intro l
  induction l with
  | nil => intro i; rfl
  | cons im rest ih =>
    intro i
    simp [timestamped, ih (i + 1)]

/-! ## Claim theorems -/

/-- C1: Lossless still-image round-trip — for an RGB host image, building a
picture with `WebPPicture.from_pil`, encoding it with
`WebPConfig.new(lossless=True)`, taking the buffer, reconstructing
`WebPData.from_buffer` from those bytes, and decoding with colour mode RGB
yields a pixel array equal to the original image's pixel array. -/
theorem C1_still_image_roundtrip (img : PILImage) (hm : img.mode = .RGB) :
    ∃ cfg, WebPConfig.new .DEFAULT 75 true = some cfg ∧
      (WebPData.from_buffer
        (((WebPPicture.from_pil img).encode cfg).buffer)).decode .RGB =
        img.asarray := by
  refine ⟨⟨true, 75, .DEFAULT⟩, rfl, ?_⟩
  show ((WebPPicture.from_pil img).encode ⟨true, 75, .DEFAULT⟩).decode .RGB =
    img.asarray
  rw [← hm]
  exact decode_encode_still img _ rfl

/-- Witness for C1 at a concrete 2×1 RGB image. -/
theorem C1_witness :
    ∃ cfg, WebPConfig.new .DEFAULT 75 true = some cfg ∧
      (WebPData.from_buffer
        (((WebPPicture.from_pil ⟨.RGB, 2, 1, [⟨255, 0, 0, 0⟩, ⟨9, 8, 7, 0⟩]⟩).encode
          cfg).buffer)).decode .RGB =
        PILImage.asarray ⟨.RGB, 2, 1, [⟨255, 0, 0, 0⟩, ⟨9, 8, 7, 0⟩]⟩ :=
  C1_still_image_roundtrip ⟨.RGB, 2, 1, [⟨255, 0, 0, 0⟩, ⟨9, 8, 7, 0⟩]⟩ rfl

/-- C2: Animation round-trip with timestamps — encoding n same-size RGBA
frames via `WebPAnimEncoder.new(width, height, enc_opts)` with
`encode_frame` at strictly increasing timestamps, then
`assemble(final_timestamp)`, produces a buffer that `WebPAnimDecoder.new`
decodes with `anim_info.frame_count = n` (the frames being pairwise
distinct) and whose `frames()` iterator yields, in encode order, pixel
arrays equal to the original frames'. -/
theorem C2_anim_roundtrip (w h T : Nat) (imgs : List PILImage) (ts : List Nat)
    (hmode : ∀ im ∈ imgs, im.mode = .RGBA)
    (hsize : ∀ im ∈ imgs, im.width = w ∧ im.height = h)
    (hdist : List.Pairwise (fun a b => a ≠ b) imgs)
    (hlen : ts.length = imgs.length)
    (hinc : List.Chain' (fun a b => a < b) ts) :
    ∃ cfg enc,
      WebPConfig.new .DEFAULT 75 true = some cfg ∧
      encodeFrames cfg
        (WebPAnimEncoder.new w h (some WebPAnimEncoderOptions.new))
        ((imgs.map WebPPicture.from_pil).zip ts) = some enc ∧
      (WebPAnimDecoder.new (WebPData.from_buffer ((enc.assemble T).buffer))
          WebPAnimDecoderOptions.new).anim_info.frame_count = imgs.length ∧
      ((WebPAnimDecoder.new (WebPData.from_buffer ((enc.assemble T).buffer))
          WebPAnimDecoderOptions.new).frames).map Prod.fst =
        imgs.map PILImage.asarray := by
  have hinc' := hinc
  clear hinc'
  refine ⟨⟨true, 75, .DEFAULT⟩, ?_⟩
  set cfg : WebPConfig := ⟨true, 75, .DEFAULT⟩ with hcfg
  set pts : List (WebPPicture × Nat) := (imgs.map WebPPicture.from_pil).zip ts
    with hpts
  set enc0 : WebPAnimEncoder :=
    WebPAnimEncoder.new w h (some WebPAnimEncoderOptions.new) with henc0
  have hsz : ∀ p ∈ pts, p.1.width = enc0.width ∧ p.1.height = enc0.height := by
    intro p hp
    obtain ⟨pic, t⟩ := p
    have hmem := (List.of_mem_zip hp).1
    obtain ⟨im, him, heq⟩ := List.mem_map.mp hmem
    have hs := hsize im him
    subst heq
    exact ⟨hs.1, hs.2⟩
  have henc := encodeFrames_ok cfg pts enc0 hsz
  set F : List (List Pix × Nat) :=
    pts.map (fun p => (encodePixels cfg p.1.pixels, p.2)) with hFdef
  have hF : F.map Prod.fst = imgs.map PILImage.pixels := by
    rw [hFdef]
    rw [List.map_map]
    have hstep : ∀ p ∈ pts,
        (Prod.fst ∘ fun p : WebPPicture × Nat =>
          (encodePixels cfg p.1.pixels, p.2)) p = p.1.pixels := by
      intro p _
      simp [encodePixels_lossless cfg rfl]
    rw [List.map_congr_left hstep]
    have hfst : pts.map (fun p => p.1.pixels) =
        (pts.map Prod.fst).map WebPPicture.pixels := by
      rw [List.map_map]
      rfl
    rw [hfst, hpts, List.map_fst_zip _ ts (by simp [hlen]), List.map_map]
    apply List.map_congr_left
    intro im him
    simp only [Function.comp_apply]
    exact from_pil_pixels_rgba im (hmode im him)
  have hchain := chain_of_pairwise w h imgs F hF hmode hsize hdist
  have hmerged := merged_decode T imgs F hF hmode hchain
  have hframes : ({ enc0 with frames := enc0.frames ++ F } :
      WebPAnimEncoder).frames = F := by
    simp [henc0, WebPAnimEncoder.new]
  refine ⟨{ enc0 with frames := enc0.frames ++ F }, rfl, henc, ?_, ?_⟩
  · show (mergeFrames T ({ enc0 with frames := enc0.frames ++ F } :
        WebPAnimEncoder).frames).length = imgs.length
    rw [hframes]
    exact hmerged.1
  · show ((mergeFrames T ({ enc0 with frames := enc0.frames ++ F } :
        WebPAnimEncoder).frames).map
        (fun f => (bufBytes .RGBA f.1, f.2))).map Prod.fst =
      imgs.map PILImage.asarray
    rw [hframes, List.map_map]
    have hcomp : (Prod.fst ∘ fun f : List Pix × Nat =>
        (bufBytes .RGBA f.1, f.2)) =
        fun f : List Pix × Nat => bufBytes .RGBA f.1 := rfl
    rw [hcomp]
    exact hmerged.2

/-- Witness for C2 at two concrete distinct 1×1 RGBA frames with timestamps
0 and 250 and final timestamp 500. -/
theorem C2_witness :
    ∃ cfg enc,
      WebPConfig.new .DEFAULT 75 true = some cfg ∧
      encodeFrames cfg
        (WebPAnimEncoder.new 1 1 (some WebPAnimEncoderOptions.new))
        (([(⟨.RGBA, 1, 1, [⟨1, 2, 3, 4⟩]⟩ : PILImage),
           ⟨.RGBA, 1, 1, [⟨5, 6, 7, 8⟩]⟩].map WebPPicture.from_pil).zip
          [0, 250]) = some enc ∧
      (WebPAnimDecoder.new (WebPData.from_buffer ((enc.assemble 500).buffer))
          WebPAnimDecoderOptions.new).anim_info.frame_count =
        ([(⟨.RGBA, 1, 1, [⟨1, 2, 3, 4⟩]⟩ : PILImage),
          ⟨.RGBA, 1, 1, [⟨5, 6, 7, 8⟩]⟩] : List PILImage).length ∧
      ((WebPAnimDecoder.new (WebPData.from_buffer ((enc.assemble 500).buffer))
          WebPAnimDecoderOptions.new).frames).map Prod.fst =
        [(⟨.RGBA, 1, 1, [⟨1, 2, 3, 4⟩]⟩ : PILImage),
         ⟨.RGBA, 1, 1, [⟨5, 6, 7, 8⟩]⟩].map PILImage.asarray :=
  C2_anim_roundtrip 1 1 500
    [⟨.RGBA, 1, 1, [⟨1, 2, 3, 4⟩]⟩, ⟨.RGBA, 1, 1, [⟨5, 6, 7, 8⟩]⟩]
    [0, 250] (by decide) (by decide) (by decide) (by decide)
    (by simp [List.chain'_cons])

/-- C4 counterexample: two pairwise-distinct RGBA host images whose
dimensions differ — `save_images` fails (the external encoder rejects the
second frame), so no round trip takes place, refuting the claim for
arbitrary pairwise-distinct RGBA image lists. -/
theorem C4_counterexample :
    List.Pairwise (fun a b => a ≠ b)
      [(⟨.RGBA, 1, 1, [⟨0, 0, 0, 255⟩]⟩ : PILImage),
       ⟨.RGBA, 2, 1, [⟨1, 2, 3, 255⟩, ⟨4, 5, 6, 255⟩]⟩] ∧
    (∀ im ∈ [(⟨.RGBA, 1, 1, [⟨0, 0, 0, 255⟩]⟩ : PILImage),
       ⟨.RGBA, 2, 1, [⟨1, 2, 3, 255⟩, ⟨4, 5, 6, 255⟩]⟩], im.mode = .RGBA) ∧
    save_images
      [(⟨.RGBA, 1, 1, [⟨0, 0, 0, 255⟩]⟩ : PILImage),
       ⟨.RGBA, 2, 1, [⟨1, 2, 3, 255⟩, ⟨4, 5, 6, 255⟩]⟩] 4 true = none := by
  decide

/-- C4 (amended): for a nonempty list of pairwise-distinct RGBA host images
of identical dimensions, `save_images(imgs, path, fps, lossless=True)`
followed by `load_images(path, 'RGBA')` returns exactly as many images as
were saved, with uint8 pixel arrays equal to the originals', in order. -/
theorem C4_save_load_images_roundtrip (w h fps : Nat) (img0 : PILImage)
    (rest : List PILImage)
    (hmode : ∀ im ∈ img0 :: rest, im.mode = .RGBA)
    (hsize : ∀ im ∈ img0 :: rest, im.width = w ∧ im.height = h)
    (hdist : List.Pairwise (fun a b => a ≠ b) (img0 :: rest)) :
    ∃ buf, save_images (img0 :: rest) fps true = some buf ∧
      load_images buf .RGBA none = (img0 :: rest).map PILImage.asarray := by
  set imgs : List PILImage := img0 :: rest with himgs
  set cfg : WebPConfig := ⟨true, 75, .DEFAULT⟩ with hcfg
  set pts : List (WebPPicture × Nat) := timestamped fps 0 imgs with hpts
  set enc0 : WebPAnimEncoder :=
    WebPAnimEncoder.new img0.width img0.height none with henc0
  have hsz : ∀ p ∈ pts, p.1.width = enc0.width ∧ p.1.height = enc0.height := by
    intro p hp
    obtain ⟨im, him, heq⟩ := timestamped_mem fps imgs 0 p hp
    have hs := hsize im him
    have hs0 := hsize img0 (by simp [himgs])
    rw [heq]
    exact ⟨by rw [WebPPicture.from_pil, hs.1, ← hs0.1]; rfl,
           by rw [WebPPicture.from_pil, hs.2, ← hs0.2]; rfl⟩
  have henc := encodeFrames_ok cfg pts enc0 hsz
  set F : List (List Pix × Nat) :=
    pts.map (fun p => (encodePixels cfg p.1.pixels, p.2)) with hFdef
  have hF : F.map Prod.fst = imgs.map PILImage.pixels := by
    rw [hFdef, List.map_map]
    have hstep : ∀ p ∈ pts,
        (Prod.fst ∘ fun p : WebPPicture × Nat =>
          (encodePixels cfg p.1.pixels, p.2)) p = p.1.pixels := by
      intro p _
      simp [encodePixels_lossless cfg rfl]
    rw [List.map_congr_left hstep]
    have hfst : pts.map (fun p => p.1.pixels) =
        (pts.map Prod.fst).map WebPPicture.pixels := by
      rw [List.map_map]
      rfl
    rw [hfst, hpts, timestamped_map_fst fps imgs 0, List.map_map]
    apply List.map_congr_left
    intro im him
    simp only [Function.comp_apply]
    exact from_pil_pixels_rgba im (hmode im him)
  have hchain := chain_of_pairwise w h imgs F hF hmode hsize hdist
  have hmerged := merged_decode (imgs.length * 1000 / fps) imgs F hF hmode hchain
  have hframes : ({ enc0 with frames := enc0.frames ++ F } :
      WebPAnimEncoder).frames = F := by
    simp [henc0, WebPAnimEncoder.new]
  have hsave : save_images imgs fps true =
      some ((({ enc0 with frames := enc0.frames ++ F } :
        WebPAnimEncoder).assemble (imgs.length * 1000 / fps)).buffer) := by
    have hstep : save_images imgs fps true =
        match encodeFrames cfg enc0 pts with
        | none => none
        | some enc => some ((enc.assemble (imgs.length * 1000 / fps)).buffer) :=
      rfl
    rw [hstep, henc]
  refine ⟨_, hsave, ?_⟩
  show ((mergeFrames (imgs.length * 1000 / fps)
      ({ enc0 with frames := enc0.frames ++ F } :
        WebPAnimEncoder).frames).map
      (fun f => (bufBytes .RGBA f.1, f.2))).map Prod.fst =
    imgs.map PILImage.asarray
  rw [hframes, List.map_map]
  have hcomp : (Prod.fst ∘ fun f : List Pix × Nat =>
      (bufBytes .RGBA f.1, f.2)) =
      fun f : List Pix × Nat => bufBytes .RGBA f.1 := rfl
  rw [hcomp]
  exact hmerged.2

/-- Witness for the amended C4 at two concrete distinct 1×1 RGBA images and
fps 4. -/
theorem C4_witness :
    ∃ buf, save_images
        [(⟨.RGBA, 1, 1, [⟨1, 2, 3, 4⟩]⟩ : PILImage),
         ⟨.RGBA, 1, 1, [⟨5, 6, 7, 8⟩]⟩] 4 true = some buf ∧
      load_images buf .RGBA none =
        [(⟨.RGBA, 1, 1, [⟨1, 2, 3, 4⟩]⟩ : PILImage),
         ⟨.RGBA, 1, 1, [⟨5, 6, 7, 8⟩]⟩].map PILImage.asarray :=
  C4_save_load_images_roundtrip 1 1 4 ⟨.RGBA, 1, 1, [⟨1, 2, 3, 4⟩]⟩
    [⟨.RGBA, 1, 1, [⟨5, 6, 7, 8⟩]⟩] (by decide) (by decide) (by decide)

/-- C3: Convenience still-image round-trip — for every RGB host image,
`save_image(img, path, lossless=True)` followed by
`load_image(path, 'RGB')` returns an image whose uint8 pixel array equals
the original's. -/
theorem C3_save_load_image_roundtrip (img : PILImage) (hm : img.mode = .RGB) :
    ∃ buf, save_image img true = some buf ∧ load_image buf .RGB = img.asarray := by
  refine ⟨((WebPPicture.from_pil img).encode ⟨true, 75, .DEFAULT⟩).buffer, rfl, ?_⟩
  show ((WebPPicture.from_pil img).encode ⟨true, 75, .DEFAULT⟩).decode .RGB =
    img.asarray
  rw [← hm]
  exact decode_encode_still img _ rfl

/-- Witness for C3 at a concrete 1×2 RGB image. -/
theorem C3_witness :
    ∃ buf, save_image ⟨.RGB, 1, 2, [⟨0, 0, 255, 0⟩, ⟨1, 2, 3, 0⟩]⟩ true = some buf ∧
      load_image buf .RGB =
        PILImage.asarray ⟨.RGB, 1, 2, [⟨0, 0, 255, 0⟩, ⟨1, 2, 3, 0⟩]⟩ :=
  C3_save_load_image_roundtrip ⟨.RGB, 1, 2, [⟨0, 0, 255, 0⟩, ⟨1, 2, 3, 0⟩]⟩ rfl

/-- C5: Frame resampling on load — saving the frame sequence
[img1, img1, img2, img2] (two adjacent duplicate pairs of distinct frames)
at fps 4 lets the encoder combine each duplicate pair, and loading with the
explicit fps 4 resamples the two stored frames back to 4 evenly spaced
frames. -/
theorem C5_resample_count (w h : Nat) (i1 i2 : PILImage)
    (h1 : i1.mode = .RGB) (h2 : i2.mode = .RGB)
    (hw1 : i1.width = w) (hh1 : i1.height = h)
    (hw2 : i2.width = w) (hh2 : i2.height = h)
    (hd : i1.asarray ≠ i2.asarray) :
    ∃ buf, save_images [i1, i1, i2, i2] 4 true = some buf ∧
      (load_images buf .RGBA (some 4)).length = 4 := by
  have hAB : (WebPPicture.from_pil i1).pixels ≠ (WebPPicture.from_pil i2).pixels := by
    intro hab
    apply hd
    rw [← from_pil_bytes i1, ← from_pil_bytes i2, h1, h2, hab]
  have hsz : ∀ p ∈ timestamped 4 0 [i1, i1, i2, i2],
      p.1.width = (WebPAnimEncoder.new i1.width i1.height none).width ∧
      p.1.height = (WebPAnimEncoder.new i1.width i1.height none).height := by
    intro p hp
    obtain ⟨im, him, heq⟩ := timestamped_mem 4 [i1, i1, i2, i2] 0 p hp
    have hwh : im.width = i1.width ∧ im.height = i1.height := by
      simp only [List.mem_cons, List.not_mem_nil, or_false] at him
      rcases him with rfl | rfl | rfl | rfl
      exacts [⟨rfl, rfl⟩, ⟨rfl, rfl⟩,
        ⟨by rw [hw2, hw1], by rw [hh2, hh1]⟩,
        ⟨by rw [hw2, hw1], by rw [hh2, hh1]⟩]
    rw [heq]
    exact ⟨hwh.1, hwh.2⟩
  have henc := encodeFrames_ok ⟨true, 75, .DEFAULT⟩
    (timestamped 4 0 [i1, i1, i2, i2])
    (WebPAnimEncoder.new i1.width i1.height none) hsz
  have hts : timestamped 4 0 [i1, i1, i2, i2] =
      [(WebPPicture.from_pil i1, 0), (WebPPicture.from_pil i1, 250),
       (WebPPicture.from_pil i2, 500), (WebPPicture.from_pil i2, 750)] := by
    norm_num [timestamped]
  have hF : (timestamped 4 0 [i1, i1, i2, i2]).map
      (fun p => (encodePixels ⟨true, 75, .DEFAULT⟩ p.1.pixels, p.2)) =
      [((WebPPicture.from_pil i1).pixels, 0),
       ((WebPPicture.from_pil i1).pixels, 250),
       ((WebPPicture.from_pil i2).pixels, 500),
       ((WebPPicture.from_pil i2).pixels, 750)] := by
    rw [hts]
    simp [encodePixels]
  have hmg : mergeFrames 1000
      [((WebPPicture.from_pil i1).pixels, 0),
       ((WebPPicture.from_pil i1).pixels, 250),
       ((WebPPicture.from_pil i2).pixels, 500),
       ((WebPPicture.from_pil i2).pixels, 750)] =
      [((WebPPicture.from_pil i1).pixels, 500),
       ((WebPPicture.from_pil i2).pixels, 1000)] := by
    simp [mergeFrames, mergeAux, hAB]
  have hstep : save_images [i1, i1, i2, i2] 4 true =
      match encodeFrames (⟨true, 75, .DEFAULT⟩ : WebPConfig)
          (WebPAnimEncoder.new i1.width i1.height none)
          (timestamped 4 0 [i1, i1, i2, i2]) with
      | none => none
      | some enc =>
        some ((enc.assemble ([i1, i1, i2, i2].length * 1000 / 4)).buffer) := rfl
  have hbuf : save_images [i1, i1, i2, i2] 4 true =
      some ⟨i1.width, i1.height,
        [((WebPPicture.from_pil i1).pixels, 500),
         ((WebPPicture.from_pil i2).pixels, 1000)]⟩ := by
    rw [hstep, henc]
    norm_num only [WebPAnimEncoder.assemble, WebPData.buffer,
      WebPAnimEncoder.new, List.nil_append, List.length_cons, List.length_nil]
    rw [hF, hmg]
  refine ⟨_, hbuf, ?_⟩
  show (load_images ⟨i1.width, i1.height,
      [((WebPPicture.from_pil i1).pixels, 500),
       ((WebPPicture.from_pil i2).pixels, 1000)]⟩ .RGBA (some 4)).length = 4
  simp only [load_images, WebPData.from_buffer, WebPAnimDecoder.new,
    WebPAnimDecoder.frames, List.map_cons, List.map_nil]
  norm_num [resampleAux, List.length_append]

/-- Witness for C5 at two concrete distinct 1×1 RGB images. -/
theorem C5_witness :
    ∃ buf, save_images
        [(⟨.RGB, 1, 1, [⟨255, 0, 0, 0⟩]⟩ : PILImage),
         ⟨.RGB, 1, 1, [⟨255, 0, 0, 0⟩]⟩,
         ⟨.RGB, 1, 1, [⟨0, 255, 0, 0⟩]⟩,
         ⟨.RGB, 1, 1, [⟨0, 255, 0, 0⟩]⟩] 4 true = some buf ∧
      (load_images buf .RGBA (some 4)).length = 4 :=
  C5_resample_count 1 1 ⟨.RGB, 1, 1, [⟨255, 0, 0, 0⟩]⟩
    ⟨.RGB, 1, 1, [⟨0, 255, 0, 0⟩]⟩ rfl rfl rfl rfl rfl rfl (by decide)

/-- C6: Configuration construction — `WebPConfig.new` succeeds both for
preset `DRAWING` with quality 50 and for `lossless=True` alone (Python
defaults otherwise), yields a config that encode operations accept, and the
config can be deleted without error. -/
theorem C6_config_construction :
    (∃ c, WebPConfig.new .DRAWING 50 false = some c ∧ WebPConfig.delete c = ()) ∧
    (∃ c, WebPConfig.new .DEFAULT 75 true = some c ∧
      ((WebPPicture.new 8 8).encode c).frames.length = 1 ∧
      WebPConfig.delete c = ()) :=
  ⟨⟨⟨false, 50, .DRAWING⟩, rfl, rfl⟩, ⟨⟨true, 75, .DEFAULT⟩, rfl, rfl, rfl⟩⟩

/-- C7: Picture construction — `WebPPicture.new(width, height)` creates a
picture of the given dimensions, and `WebPPicture.from_pil(img)` converts
any RGB or RGBA host image into a picture of the image's dimensions whose
buffer carries the image's pixel data (its uint8 array read in the image's
mode is the image's array); both can be deleted without error. -/
theorem C7_picture_construction (w h : Nat) (img : PILImage)
    (hm : img.mode = .RGB ∨ img.mode = .RGBA) :
    (WebPPicture.new w h).width = w ∧ (WebPPicture.new w h).height = h ∧
    WebPPicture.delete (WebPPicture.new w h) = () ∧
    (WebPPicture.from_pil img).width = img.width ∧
    (WebPPicture.from_pil img).height = img.height ∧
    bufBytes img.mode (WebPPicture.from_pil img).pixels = img.asarray ∧
    WebPPicture.delete (WebPPicture.from_pil img) = () :=
  ⟨rfl, rfl, rfl, rfl, rfl, from_pil_bytes img, rfl⟩

/-- Witness for C7 at 32×32 and a concrete 2×1 RGBA image. -/
theorem C7_witness :
    (WebPPicture.new 32 32).width = 32 ∧ (WebPPicture.new 32 32).height = 32 ∧
    WebPPicture.delete (WebPPicture.new 32 32) = () ∧
    (WebPPicture.from_pil ⟨.RGBA, 2, 1, [⟨1, 2, 3, 4⟩, ⟨5, 6, 7, 8⟩]⟩).width =
      PILImage.width ⟨.RGBA, 2, 1, [⟨1, 2, 3, 4⟩, ⟨5, 6, 7, 8⟩]⟩ ∧
    (WebPPicture.from_pil ⟨.RGBA, 2, 1, [⟨1, 2, 3, 4⟩, ⟨5, 6, 7, 8⟩]⟩).height =
      PILImage.height ⟨.RGBA, 2, 1, [⟨1, 2, 3, 4⟩, ⟨5, 6, 7, 8⟩]⟩ ∧
    bufBytes (PILImage.mode ⟨.RGBA, 2, 1, [⟨1, 2, 3, 4⟩, ⟨5, 6, 7, 8⟩]⟩)
      (WebPPicture.from_pil ⟨.RGBA, 2, 1, [⟨1, 2, 3, 4⟩, ⟨5, 6, 7, 8⟩]⟩).pixels =
      PILImage.asarray ⟨.RGBA, 2, 1, [⟨1, 2, 3, 4⟩, ⟨5, 6, 7, 8⟩]⟩ ∧
    WebPPicture.delete
      (WebPPicture.from_pil ⟨.RGBA, 2, 1, [⟨1, 2, 3, 4⟩, ⟨5, 6, 7, 8⟩]⟩) = () :=
  C7_picture_construction 32 32 ⟨.RGBA, 2, 1, [⟨1, 2, 3, 4⟩, ⟨5, 6, 7, 8⟩]⟩
    (Or.inr rfl)

/-- C8: `get_long_description` returns the pypandoc conversion when pypandoc
imports and converts successfully, falls back to the raw `README.md` read
when the import raises `ImportError`, and propagates every other exception
(a missing `README.md` in the fallback, or a conversion error). -/
theorem C8_get_long_description (s : String) (r : Except PyExn String)
    (e : PyExn) (he : e ≠ PyExn.importError) :
    get_long_description (some (Except.ok s)) r = Except.ok s ∧
    get_long_description none r = r ∧
    get_long_description (some (Except.error e)) r = Except.error e := by
  refine ⟨rfl, rfl, ?_⟩
  cases e with
  | importError => exact absurd rfl he
  | ioError => rfl
  | conversionError => rfl

/-- Witness for C8 at concrete conversion output, README content, and a
propagating conversion error. -/
theorem C8_witness :
    get_long_description (some (Except.ok "rst")) (Except.ok "raw") =
      Except.ok "rst" ∧
    get_long_description none (Except.ok "raw") = Except.ok "raw" ∧
    get_long_description (some (Except.error PyExn.conversionError))
      (Except.ok "raw") = Except.error PyExn.conversionError :=
  C8_get_long_description "rst" (Except.ok "raw") PyExn.conversionError
    (by decide)

/-- C9: an animation encoder created without an options argument has the
default options `minimize_size = False` and `allow_mixed = False`. -/
theorem C9_default_enc_opts :
    (WebPAnimEncoder.new 64 64 none).enc_opts.minimize_size = false ∧
    (WebPAnimEncoder.new 64 64 none).enc_opts.allow_mixed = false :=
  ⟨rfl, rfl⟩

/-- C10: the `TemporaryDirectory` backport's cleanup is idempotent — with a
directory name set and the instance not yet closed, the first cleanup
removes the directory tree and sets `_closed`, and every later call (also
via `__exit__` and `__del__`) performs no further removal, so cleaning up
twice equals cleaning up once. -/
theorem C10_cleanup_idempotent (td : TemporaryDirectory) (fs : FS) (n : String)
    (hn : td.name = some n) (hc : td._closed = false) :
    td.cleanup fs = ({ td with _closed := true }, rmtree n fs) ∧
    (td.cleanup fs).1.cleanup (td.cleanup fs).2 = td.cleanup fs ∧
    (td.cleanup fs).1.exit (td.cleanup fs).2 = td.cleanup fs ∧
    (td.cleanup fs).1.del (td.cleanup fs).2 = td.cleanup fs := by
  have h1 : td.cleanup fs = ({ td with _closed := true }, rmtree n fs) := by
    simp [TemporaryDirectory.cleanup, hn, hc]
  have h2 : (td.cleanup fs).1.cleanup (td.cleanup fs).2 = td.cleanup fs := by
    rw [h1]
    simp [TemporaryDirectory.cleanup, hn]
  exact ⟨h1, h2, h2, h2⟩

/-- Witness for C10 at a concrete instance and filesystem. -/
theorem C10_witness :
    TemporaryDirectory.cleanup ⟨some "tmp", false⟩ ["tmp", "tmp/sub", "doc"] =
      (⟨some "tmp", true⟩, rmtree "tmp" ["tmp", "tmp/sub", "doc"]) ∧
    (TemporaryDirectory.cleanup ⟨some "tmp", false⟩
        ["tmp", "tmp/sub", "doc"]).1.cleanup
      (TemporaryDirectory.cleanup ⟨some "tmp", false⟩
        ["tmp", "tmp/sub", "doc"]).2 =
      TemporaryDirectory.cleanup ⟨some "tmp", false⟩ ["tmp", "tmp/sub", "doc"] ∧
    (TemporaryDirectory.cleanup ⟨some "tmp", false⟩
        ["tmp", "tmp/sub", "doc"]).1.exit
      (TemporaryDirectory.cleanup ⟨some "tmp", false⟩
        ["tmp", "tmp/sub", "doc"]).2 =
      TemporaryDirectory.cleanup ⟨some "tmp", false⟩ ["tmp", "tmp/sub", "doc"] ∧
    (TemporaryDirectory.cleanup ⟨some "tmp", false⟩
        ["tmp", "tmp/sub", "doc"]).1.del
      (TemporaryDirectory.cleanup ⟨some "tmp", false⟩
        ["tmp", "tmp/sub", "doc"]).2 =
      TemporaryDirectory.cleanup ⟨some "tmp", false⟩ ["tmp", "tmp/sub", "doc"] :=
  C10_cleanup_idempotent ⟨some "tmp", false⟩ ["tmp", "tmp/sub", "doc"] "tmp"
    rfl rfl
